import Mathlib

/-!
Shallow embedding of the order / payment / customer-ledger core of the
crafting-sign backend (src/routes/orderRoutes.js, src/routes/paymentRoutes.js,
src/models/Order.js), together with theorems settling the specification
claims about it.

Modelling conventions:
- Monetary amounts are rationals (the JS numbers involved in the claims are
  small exact decimals).
- Timestamps are naturals; each request handler receives the instant `now`
  that models the wall-clock reads (`new Date()`, mongoose `timestamps`)
  performed while it runs.
- Mongo collections are Lean lists in insertion order; `countDocuments` is
  `List.length`; a mongoose document save that fails schema validation makes
  the handler answer 500 through its catch block, with the store unchanged.
- The external payment gateway (Stripe) is a function from intent id to the
  intent's current status string; handlers are modelled under the assumption
  that the gateway is configured (STRIPE_SECRET_KEY present).
-/

/-- One line item, as in orderItemSchema of src/models/Order.js.
`quantity` is `Option Nat` because the request may omit it (the confirm
handler applies `item.quantity || 1`). -/
structure OrderItem where
  productId : String
  name : String
  price : ℚ
  quantity : Option Nat
  selectedSize : String
  selectedColor : String
  customization : String
deriving DecidableEq

/-- Contact block of a request (`req.body.customer`) and the embedded customer
snapshot of an order. The order schema stores name/email/phone/address/city/
country; `location` is the extra request field read by the update branch of
the customer upsert in orderRoutes.js (line 86). Absent string fields are
the empty string, matching JS falsiness of `undefined` and `''`. -/
structure CustomerInfo where
  name : String
  email : String
  phone : String
  address : String
  city : String
  country : String
  location : String
deriving DecidableEq

/-- An order document (orderSchema in src/models/Order.js). -/
structure Order where
  orderId : String
  customer : CustomerInfo
  items : List OrderItem
  total : ℚ
  status : String
  paymentStatus : String
  notes : String
  createdAt : Nat
deriving DecidableEq

/-- A customer ledger row. Modelled from the spec: src/models/Customer.js is
not part of src/; the fields follow spec section 3 and are exactly the ones
the two route handlers read and write. -/
structure Customer where
  customerId : String
  customerName : String
  email : String
  phone : String
  location : String
  totalOrders : Nat
  totalSpent : ℚ
  lastOrderDate : Nat
  paymentStatus : String
deriving DecidableEq

/-- Persisted state: the `orders` and `customers` collections. -/
structure DB where
  orders : List Order
  customers : List Customer
deriving DecidableEq

def emptyDB : DB := ⟨[], []⟩

/-- The status enum of orderSchema (also the isIn list of the PUT
/orders/:id/status validator). -/
def statusEnum : List String := ["Pending", "Processing", "Shipped", "Delivered", "Cancelled"]

/-- The paymentStatus enum of orderSchema. -/
def payEnum : List String := ["Pending", "Complete", "Failed", "Refunded"]

/-- Result of a handler, tagged with the HTTP status it answers:
`created` is 201, `ok` is 200, `badRequest` 400, `notFound` 404,
`serverError` 500. -/
inductive ApiResult where
  | created (o : Order)
  | ok (o : Order)
  | badRequest (msg : String)
  | notFound (msg : String)
  | serverError (msg : String)
deriving DecidableEq

/-- Projection: the order of a 201 answer, if any. -/
def ApiResult.createdOrder? : ApiResult → Option Order
  | .created o => some o
  | _ => none

/-- JS `a || b` for strings: `b` when `a` is empty (falsy), else `a`. -/
def jsOr (a : Option String) (b : String) : String :=
  match a with
  | some s => if s = "" then b else s
  | none => b

/-- JS `q || 1` for the confirm handler's item quantities. -/
def jsOrOne (q : Option Nat) : Nat :=
  match q with
  | some 0 => 1
  | some n => n
  | none => 1

/-- Decimal digit characters of a positive natural, most significant first;
fuel-based embedding of JS `String(n)`. The fuel `n` itself is always
enough since `n / 10 < n` for positive `n`. -/
def toDecAux : Nat → Nat → List Char
  | 0, _ => []
  | _ + 1, 0 => []
  | fuel + 1, n + 1 => toDecAux fuel ((n + 1) / 10) ++ [Nat.digitChar ((n + 1) % 10)]

/-- Decimal digit characters of a natural, the embedding of JS `String(n)`. -/
def toDecChars (n : Nat) : List Char :=
  if n = 0 then ['0'] else toDecAux n n

/-- JS `s.padStart(3, '0')` on a character list. -/
def padStart3 (l : List Char) : List Char :=
  List.replicate (3 - l.length) '0' ++ l

/-- Order identifier minted from the order count: the template
`ORD-` followed by `String(orderCount + 1).padStart(3, '0')`
(orderRoutes.js line 67, paymentRoutes.js line 103). -/
def mkOrderId (n : Nat) : String :=
  String.mk (['O', 'R', 'D', '-'] ++ padStart3 (toDecChars n))

/-- Customer identifier minted from the customer count: `CUST-` followed by
`String(count + 1).padStart(3, '0')` (orderRoutes.js line 89,
paymentRoutes.js line 146). -/
def mkCustomerId (n : Nat) : String :=
  String.mk (['C', 'U', 'S', 'T', '-'] ++ padStart3 (toDecChars n))

/-- Value of a digit character; reads back what `Nat.digitChar` wrote. -/
def charVal (c : Char) : Nat := c.toNat - 48

/-- Numeric value of a decimal character string, used only to invert
`toDecChars` when proving identifiers distinct. -/
def fromDecChars (l : List Char) : Nat :=
  l.foldl (fun a c => 10 * a + charVal c) 0

/-- Body of POST /orders. Besides the documented fields, the handler spreads
the whole body over the freshly minted orderId, so the body may also carry
`orderId`, `status`, `paymentStatus` and `notes`; `none` models an absent
field. -/
structure OrderRequest where
  customer : CustomerInfo
  items : List OrderItem
  total : ℚ
  orderId : Option String
  status : Option String
  paymentStatus : Option String
  notes : Option String
deriving DecidableEq

/-- Body of POST /payments/confirm. `shipping` is the shipping method when a
shipping object is present. -/
structure ConfirmRequest where
  paymentIntentId : String
  customer : CustomerInfo
  items : List OrderItem
  total : ℚ
  shipping : Option String
deriving DecidableEq

/-- Gate modelling express-validator's isEmail, an external library outside
src/: the address must contain an at-sign that is neither first nor last.
Only used as a boolean gate; no claim depends on its exact extension. -/
def isEmailish (s : String) : Bool :=
  s.data.contains '@' && s.data.head? != some '@' && s.data.getLast? != some '@'

/-- The express-validator chain of POST /orders (orderRoutes.js lines 52-57):
customer name/phone nonempty, email well-formed, at least one item,
total a number at least 0. -/
def directReqValid (r : OrderRequest) : Bool :=
  decide (r.customer.name ≠ "") && isEmailish r.customer.email &&
  decide (r.customer.phone ≠ "") && decide (r.items ≠ []) && decide (0 ≤ r.total)

/-- The express-validator chain of POST /payments/confirm (paymentRoutes.js
lines 67-73): additionally the payment intent id must be nonempty. -/
def confirmReqValid (r : ConfirmRequest) : Bool :=
  decide (r.paymentIntentId ≠ "") && decide (r.customer.name ≠ "") &&
  isEmailish r.customer.email && decide (r.customer.phone ≠ "") &&
  decide (r.items ≠ []) && decide (0 ≤ r.total)

/-- Intrinsic mongoose validation of an order document against orderSchema:
required string paths nonempty (orderId, customer name/email/phone/address),
total at least its minimum 0, status and paymentStatus members of their
enums. -/
def orderValid (o : Order) : Bool :=
  decide (o.orderId ≠ "") && decide (o.customer.name ≠ "") &&
  decide (o.customer.email ≠ "") && decide (o.customer.phone ≠ "") &&
  decide (o.customer.address ≠ "") && decide (0 ≤ o.total) &&
  decide (o.status ∈ statusEnum) && decide (o.paymentStatus ∈ payEnum)

/-- The unique index on orders.orderId: an insert succeeds only when no
stored order already has the same orderId. -/
def orderIdFresh (db : DB) (o : Order) : Bool :=
  db.orders.all fun p => decide (p.orderId ≠ o.orderId)

/-- The order document built by POST /orders (orderRoutes.js lines 69-72):
`new Order({ orderId, ...req.body })` — the spread lets every field of the
body override the minted identifier and the schema defaults (status and
paymentStatus default Pending, notes defaults empty). -/
def mkDirectOrder (now : Nat) (nextId : String) (r : OrderRequest) : Order :=
  { orderId := r.orderId.getD nextId
    customer := r.customer
    items := r.items
    total := r.total
    status := r.status.getD "Pending"
    paymentStatus := r.paymentStatus.getD "Pending"
    notes := r.notes.getD ""
    createdAt := now }

/-- The order document built by POST /payments/confirm (paymentRoutes.js
lines 106-129): explicit field list, city/country defaulted to empty, the
snapshot has no location field, quantities defaulted with `item.quantity || 1`,
status Processing, paymentStatus Complete, notes from the shipping method. -/
def mkConfirmOrder (now : Nat) (nextId : String) (r : ConfirmRequest) : Order :=
  { orderId := nextId
    customer := { name := r.customer.name
                  email := r.customer.email
                  phone := r.customer.phone
                  address := r.customer.address
                  city := r.customer.city
                  country := r.customer.country
                  location := "" }
    items := r.items.map fun it => { it with quantity := some (jsOrOne it.quantity) }
    total := r.total
    status := "Processing"
    paymentStatus := "Complete"
    notes := match r.shipping with
             | some m => "Shipping: " ++ m
             | none => ""
    createdAt := now }

/-- Updated ledger row of the existing-customer branch shared by both
handlers (orderRoutes.js lines 79-86, paymentRoutes.js lines 136-143):
counters incremented, lastOrderDate and paymentStatus overwritten, each
contact field overwritten only when the incoming value is truthy. -/
def updatedCustomer (c : Customer) (now : Nat) (name phone locUpd : String)
    (total : ℚ) (pay : String) : Customer :=
  { c with
    totalOrders := c.totalOrders + 1
    totalSpent := c.totalSpent + total
    lastOrderDate := now
    paymentStatus := pay
    customerName := if name ≠ "" then name else c.customerName
    phone := if phone ≠ "" then phone else c.phone
    location := if locUpd ≠ "" then locUpd else c.location }

/-- Fresh ledger row of the new-customer branch shared by both handlers
(orderRoutes.js lines 88-98, paymentRoutes.js lines 145-155). `count` is
`Customer.countDocuments()` at creation time. -/
def newCustomer (count : Nat) (now : Nat) (name email phone locNew : String)
    (total : ℚ) (pay : String) : Customer :=
  { customerId := mkCustomerId (count + 1)
    customerName := name
    email := email
    phone := phone
    location := locNew
    totalOrders := 1
    totalSpent := total
    lastOrderDate := now
    paymentStatus := pay }

/-- Saving the found mongoose document back: the first row with this email is
replaced, every other row untouched. -/
def replaceCustomer (email : String) (c' : Customer) : List Customer → List Customer
  | [] => []
  | x :: xs => if x.email = email then c' :: xs else x :: replaceCustomer email c' xs

/-- Shared embedding of the customer upsert blocks of the two handlers
(orderRoutes.js lines 77-101, paymentRoutes.js lines 134-158). `locUpd` is
the value tested and assigned in the update branch (`customer.location` in
orderRoutes, `customer.country` in paymentRoutes); `locNew` the location of a
fresh row (`customer.country || ''` in both); `pay` the paymentStatus written
(`req.body.paymentStatus || 'Pending'` in orderRoutes, `'Complete'` in
paymentRoutes). -/
def upsertCustomer (now : Nat) (name email phone locUpd locNew : String)
    (total : ℚ) (pay : String) (cs : List Customer) : List Customer :=
  match cs.find? (fun c => c.email == email) with
  | some c => replaceCustomer email (updatedCustomer c now name phone locUpd total pay) cs
  | none => cs ++ [newCustomer cs.length now name email phone locNew total pay]

/-- The POST /orders handler (orderRoutes.js lines 52-107): validate, mint
`ORD-` + padded (count+1), build the order from the spread body, save it
(schema validation plus the unique orderId index; a failed save answers 500
via the catch block with nothing persisted), then upsert the customer row. -/
def createDirect (now : Nat) (r : OrderRequest) (db : DB) : ApiResult × DB :=
  if directReqValid r then
    let o := mkDirectOrder now (mkOrderId (db.orders.length + 1)) r
    if orderValid o && orderIdFresh db o then
      (.created o,
       { orders := db.orders ++ [o]
         customers := upsertCustomer now r.customer.name r.customer.email
           r.customer.phone r.customer.location r.customer.country r.total
           (jsOr r.paymentStatus "Pending") db.customers })
    else (.serverError "Error creating order", db)
  else (.badRequest "validation", db)

/-- The POST /payments/confirm handler (paymentRoutes.js lines 67-171):
validate, retrieve the intent's status from the gateway, answer 400
"Payment not completed" when it is not succeeded, else mint an identifier,
save the order, and upsert the customer row with paymentStatus Complete.
There is no lookup of an existing order for the intent, and the order
document does not retain the intent id. -/
def confirmPayment (gw : String → String) (now : Nat) (r : ConfirmRequest)
    (db : DB) : ApiResult × DB :=
  if confirmReqValid r then
    if gw r.paymentIntentId ≠ "succeeded" then
      (.badRequest "Payment not completed", db)
    else
      let o := mkConfirmOrder now (mkOrderId (db.orders.length + 1)) r
      if orderValid o && orderIdFresh db o then
        (.created o,
         { orders := db.orders ++ [o]
           customers := upsertCustomer now r.customer.name r.customer.email
             r.customer.phone r.customer.country r.customer.country r.total
             "Complete" db.customers })
      else (.serverError "Error confirming payment", db)
  else (.badRequest "validation", db)

/-- In-memory mutation performed by the PUT /orders/:id/status handler
before saving: status overwritten, paymentStatus overwritten only when the
body value is truthy (orderRoutes.js lines 126-129). -/
def applyStatusUpdate (o : Order) (ns : String) (np : Option String) : Order :=
  let o1 := { o with status := ns }
  match np with
  | some p => if p ≠ "" then { o1 with paymentStatus := p } else o1
  | none => o1

/-- The PUT /orders/:id/status handler (orderRoutes.js lines 112-136). The
Mongo object id of the path parameter is modelled as the order's position in
the collection. Validation only checks membership of `status` in the status
enum; a save rejected by the schema (e.g. a paymentStatus outside its enum)
answers 500 via the catch block with the store unchanged. -/
def updateOrderStatus (i : Nat) (ns : String) (np : Option String) (db : DB) :
    ApiResult × DB :=
  if decide (ns ∈ statusEnum) then
    match db.orders.get? i with
    | none => (.notFound "Order not found", db)
    | some o =>
      let o2 := applyStatusUpdate o ns np
      if orderValid o2 then (.ok o2, { db with orders := db.orders.set i o2 })
      else (.serverError "Error updating order", db)
  else (.badRequest "validation", db)

/-- One sequential API call of an order-creating kind, tagged with the
instant at which it runs. -/
inductive Op where
  | direct (now : Nat) (r : OrderRequest)
  | confirm (now : Nat) (r : ConfirmRequest)
deriving DecidableEq

/-- State transition of one call. -/
def step (gw : String → String) (db : DB) : Op → DB
  | .direct now r => (createDirect now r db).2
  | .confirm now r => (confirmPayment gw now r db).2

/-- Sequential execution of calls starting from the empty store. -/
def runOps (gw : String → String) (ops : List Op) : DB :=
  ops.foldl (step gw) emptyDB

/-- Orders stored for one customer email. -/
def ordersFor (email : String) (db : DB) : List Order :=
  db.orders.filter fun o => o.customer.email == email

/-- The ledger row found for an email. -/
def ledgerRow (email : String) (db : DB) : Option Customer :=
  db.customers.find? fun c => c.email == email

/-- The denormalisation invariant of the customer ledger: the row of an email
counts exactly the stored orders of that email and accumulates exactly their
totals; an email without a row has no orders. -/
def ledgerMatch (email : String) (db : DB) : Prop :=
  match ledgerRow email db with
  | some c => c.totalOrders = (ordersFor email db).length ∧
      c.totalSpent = ((ordersFor email db).map Order.total).sum
  | none => ordersFor email db = []

/-- Emails of the customer rows are pairwise distinct (the unique index on
customers.email). -/
def customersWF (cs : List Customer) : Prop :=
  (cs.map Customer.email).Nodup

/-- A plain direct-creation request: passes the validator, supplies a
shipping address, does not use the body spread to override the minted
`orderId`, and any status values it supplies are enum members, so that the
mongoose save succeeds. -/
def goodDirectReq (r : OrderRequest) : Bool :=
  directReqValid r && decide (r.orderId = none) && decide (r.customer.address ≠ "") &&
  (match r.status with
   | some s => decide (s ∈ statusEnum)
   | none => true) &&
  (match r.paymentStatus with
   | some p => decide (p ∈ payEnum)
   | none => true)

/-- A call that is a plain direct creation. -/
def goodDirectOp : Op → Bool
  | .direct _ r => goodDirectReq r
  | .confirm _ _ => false

/-- Concrete contact block used by the concrete runs below. -/
def aliceInfo : CustomerInfo :=
  { name := "Alice", email := "alice@example.com", phone := "555-0101",
    address := "1 Main St", city := "", country := "", location := "" }

/-- Concrete line item used by the concrete runs below. -/
def item1 : OrderItem :=
  { productId := "p1", name := "Sign", price := 10, quantity := some 1,
    selectedSize := "", selectedColor := "", customization := "" }

/-- Plain direct-creation request from Alice with the given total. -/
def aliceReq (t : ℚ) : OrderRequest :=
  { customer := aliceInfo, items := [item1], total := t,
    orderId := none, status := none, paymentStatus := none, notes := none }

/-- Two sequential direct orders from Alice with totals 10.00 and 15.00, the
second at instant 200. -/
def twoOrdersDB : DB :=
  runOps (fun _ => "succeeded") [Op.direct 100 (aliceReq 10), Op.direct 200 (aliceReq 15)]

/-- Gateway in which every intent reports succeeded. -/
def gwAllSucceeded : String → String := fun _ => "succeeded"

/-- Confirmation request for intent pi_1 from Alice, total 10.00. -/
def confirmReq1 : ConfirmRequest :=
  { paymentIntentId := "pi_1", customer := aliceInfo, items := [item1],
    total := 10, shipping := none }

/-- Direct-creation request whose body also carries a status field. -/
def reqWithStatusShipped : OrderRequest :=
  { customer := aliceInfo, items := [item1], total := 5,
    orderId := none, status := some "Shipped", paymentStatus := none, notes := none }

/-- Direct-creation request whose body also carries an orderId field. -/
def reqWithOrderId : OrderRequest :=
  { customer := aliceInfo, items := [item1], total := 5,
    orderId := some "HACK-9", status := none, paymentStatus := none, notes := none }

/-- A stored order used by the status-update runs. -/
def storedOrder (st : String) : Order :=
  { orderId := "ORD-001", customer := aliceInfo, items := [item1], total := 10,
    status := st, paymentStatus := "Pending", notes := "", createdAt := 0 }

/-- Store holding one order with the given status. -/
def dbWithOrder (st : String) : DB := ⟨[storedOrder st], []⟩

/-- Three plain direct creations. -/
def opsThree : List Op :=
  [Op.direct 1 (aliceReq 10), Op.direct 2 (aliceReq 15), Op.direct 3 (aliceReq 20)]

/-- An existing ledger row used by concrete upsert runs. -/
def bobRow : Customer :=
  { customerId := "CUST-001", customerName := "Bob", email := "bob@example.com",
    phone := "111", location := "Paris", totalOrders := 3, totalSpent := 40,
    lastOrderDate := 50, paymentStatus := "Pending" }

/-- Gateway in which every intent reports requires_action. -/
def gwRequiresAction : String → String := fun _ => "requires_action"

/-- Store holding no orders and one ledger row. -/
def dbBob : DB := ⟨[], [bobRow]⟩

lemma charVal_digitChar (d : Nat) (h : d < 10) : charVal (Nat.digitChar d) = d := by
  interval_cases d <;> rfl

lemma charVal_zero : charVal '0' = 0 := rfl

lemma fromDecChars_nil : fromDecChars [] = 0 := rfl

lemma fromDecChars_append_digit (l : List Char) (c : Char) :
    fromDecChars (l ++ [c]) = 10 * fromDecChars l + charVal c := by
  simp [fromDecChars, List.foldl_append]

lemma fromDec_toDecAux : ∀ fuel n, n ≤ fuel → fromDecChars (toDecAux fuel n) = n := by
  intro fuel
  induction fuel with
  | zero =>
    intro n hn
    interval_cases n
    rfl
  | succ f ih =>
    intro n hn
    match n with
    | 0 => rfl
    | m + 1 =>
      have hdiv : (m + 1) / 10 < m + 1 := Nat.div_lt_self (by omega) (by omega)
      have hfuel : (m + 1) / 10 ≤ f := by omega
      simp only [toDecAux]
      rw [fromDecChars_append_digit, ih _ hfuel,
        charVal_digitChar _ (Nat.mod_lt _ (by omega)), Nat.div_add_mod]

lemma fromDec_toDecChars (n : Nat) : fromDecChars (toDecChars n) = n := by
  unfold toDecChars
  split
  · simp_all [fromDecChars, charVal]
  · exact fromDec_toDecAux n n le_rfl

lemma fromDecChars_replicate_zero (k : Nat) (l : List Char) :
    fromDecChars (List.replicate k '0' ++ l) = fromDecChars l := by
  induction k with
  | zero => rfl
  | succ j ih =>
    simp only [List.replicate_succ, List.cons_append]
    show List.foldl _ (10 * 0 + charVal '0') _ = _
    rw [charVal_zero]
    exact ih

lemma fromDec_padStart3 (l : List Char) :
    fromDecChars (padStart3 l) = fromDecChars l :=
  fromDecChars_replicate_zero _ l

lemma mkOrderId_inj : Function.Injective mkOrderId := by
  intro m n h
  have hd : ['O', 'R', 'D', '-'] ++ padStart3 (toDecChars m) =
      ['O', 'R', 'D', '-'] ++ padStart3 (toDecChars n) := congrArg String.data h
  have h2 : padStart3 (toDecChars m) = padStart3 (toDecChars n) := by
    simpa using hd
  have h3 := congrArg fromDecChars h2
  rwa [fromDec_padStart3, fromDec_padStart3, fromDec_toDecChars, fromDec_toDecChars] at h3

lemma mkOrderId_ne_empty (n : Nat) : mkOrderId n ≠ "" := by
  intro h
  have h2 : ['O', 'R', 'D', '-'] ++ padStart3 (toDecChars n) = ([] : List Char) :=
    congrArg String.data h
  simp at h2

lemma isEmailish_ne_empty {s : String} (h : isEmailish s = true) : s ≠ "" := by
  intro he
  subst he
  simp [isEmailish] at h

lemma goodDirectReq_parts {r : OrderRequest} (hg : goodDirectReq r = true) :
    directReqValid r = true ∧ r.orderId = none ∧ r.customer.address ≠ "" ∧
    r.status.getD "Pending" ∈ statusEnum ∧ r.paymentStatus.getD "Pending" ∈ payEnum := by
  unfold goodDirectReq at hg
  simp only [Bool.and_eq_true, decide_eq_true_eq] at hg
  obtain ⟨⟨⟨⟨h1, h2⟩, h3⟩, h4⟩, h5⟩ := hg
  refine ⟨h1, h2, h3, ?_, ?_⟩
  · cases hs : r.status with
    | none => simp [statusEnum]
    | some s => rw [hs] at h4; simpa using h4
  · cases hp : r.paymentStatus with
    | none => simp [payEnum]
    | some p => rw [hp] at h5; simpa using h5

lemma directReqValid_parts {r : OrderRequest} (hv : directReqValid r = true) :
    r.customer.name ≠ "" ∧ r.customer.email ≠ "" ∧ r.customer.phone ≠ "" ∧ 0 ≤ r.total := by
  unfold directReqValid at hv
  simp only [Bool.and_eq_true, decide_eq_true_eq] at hv
  obtain ⟨⟨⟨⟨h1, h2⟩, h3⟩, _⟩, h5⟩ := hv
  exact ⟨h1, isEmailish_ne_empty h2, h3, h5⟩

lemma orderValid_of_good {r : OrderRequest} (now : Nat) (hg : goodDirectReq r = true)
    (n : Nat) :
    orderValid (mkDirectOrder now (mkOrderId n) r) = true := by
  obtain ⟨hv, hid, haddr, hst, hpy⟩ := goodDirectReq_parts hg
  obtain ⟨hname, hmail, hphone, htot⟩ := directReqValid_parts hv
  unfold orderValid mkDirectOrder
  simp [hid, mkOrderId_ne_empty, hname, hmail, hphone, haddr, htot, hst, hpy]

lemma createDirect_good (now : Nat) (r : OrderRequest) (db : DB)
    (hg : goodDirectReq r = true)
    (hfresh : orderIdFresh db (mkDirectOrder now (mkOrderId (db.orders.length + 1)) r) = true) :
    createDirect now r db =
      (.created (mkDirectOrder now (mkOrderId (db.orders.length + 1)) r),
       { orders := db.orders ++ [mkDirectOrder now (mkOrderId (db.orders.length + 1)) r]
         customers := upsertCustomer now r.customer.name r.customer.email r.customer.phone
           r.customer.location r.customer.country r.total (jsOr r.paymentStatus "Pending")
           db.customers }) := by
  have hv := (goodDirectReq_parts hg).1
  unfold createDirect
  rw [if_pos hv, if_pos (by rw [Bool.and_eq_true]; exact ⟨orderValid_of_good now hg _, hfresh⟩)]

lemma mkDirectOrder_orderId_of_none {r : OrderRequest} (hid : r.orderId = none)
    (now : Nat) (s : String) : (mkDirectOrder now s r).orderId = s := by
  simp [mkDirectOrder, hid]

lemma foldl_step_ids (gw : String → String) :
    ∀ (ops : List Op) (db : DB), (∀ op ∈ ops, goodDirectOp op = true) →
      db.orders.map Order.orderId = (List.range' 1 db.orders.length).map mkOrderId →
      (ops.foldl (step gw) db).orders.map Order.orderId =
        (List.range' 1 (db.orders.length + ops.length)).map mkOrderId := by
  intro ops
  induction ops with
  | nil => intro db _ hids; simpa using hids
  | cons op rest ih =>
    intro db hall hids
    match op with
    | .confirm _ _ =>
      have := hall _ (List.mem_cons_self _ _)
      simp [goodDirectOp] at this
    | .direct now r =>
      have hg : goodDirectReq r = true := by
        have := hall _ (List.mem_cons_self _ _)
        simpa [goodDirectOp] using this
      have hid : r.orderId = none := (goodDirectReq_parts hg).2.1
      set o := mkDirectOrder now (mkOrderId (db.orders.length + 1)) r with ho
      have hoid : o.orderId = mkOrderId (db.orders.length + 1) :=
        mkDirectOrder_orderId_of_none hid now _
      have hfresh : orderIdFresh db o = true := by
        rw [orderIdFresh, List.all_eq_true]
        intro p hp
        rw [decide_eq_true_eq]
        intro heq
        have hmem : p.orderId ∈ (List.range' 1 db.orders.length).map mkOrderId := by
          rw [← hids]; exact List.mem_map_of_mem _ hp
        obtain ⟨k, hk, hkeq⟩ := List.mem_map.mp hmem
        rw [List.mem_range'_1] at hk
        have : k = db.orders.length + 1 := mkOrderId_inj (by rw [hkeq, heq, hoid])
        omega
      have hstep : step gw db (.direct now r) =
          { orders := db.orders ++ [o]
            customers := upsertCustomer now r.customer.name r.customer.email r.customer.phone
              r.customer.location r.customer.country r.total (jsOr r.paymentStatus "Pending")
              db.customers } := by
        show (createDirect now r db).2 = _
        rw [createDirect_good now r db hg hfresh]
      rw [List.foldl_cons, hstep]
      have hids' : (db.orders ++ [o]).map Order.orderId =
          (List.range' 1 (db.orders ++ [o]).length).map mkOrderId := by
        rw [List.map_append, hids, List.length_append]
        simp only [List.length_cons, List.length_nil, Nat.zero_add]
        have : List.range' 1 (db.orders.length + 1) =
            List.range' 1 db.orders.length ++ [1 + 1 * db.orders.length] :=
          List.range'_concat 1 db.orders.length
        rw [this, List.map_append]
        simp [hoid, Nat.add_comm]
      have := ih { orders := db.orders ++ [o]
                   customers := upsertCustomer now r.customer.name r.customer.email
                     r.customer.phone r.customer.location r.customer.country r.total
                     (jsOr r.paymentStatus "Pending") db.customers }
        (fun p hp => hall p (List.mem_cons_of_mem _ hp)) hids'
      simp only [List.length_append, List.length_cons, List.length_nil] at this ⊢
      rw [this]
      ring_nf

/-- Claim C4: starting from an empty order store, sequential single-threaded
creation of N orders yields the identifiers ORD-001 through ORD-00N in
order, with no gaps or repeats; each identifier is the ORD- marker followed
by the decimal counter zero-padded to width 3, and counters beyond 999
simply use more digits. -/
theorem sequential_order_identifiers (gw : String → String) (ops : List Op)
    (h : ∀ op ∈ ops, goodDirectOp op = true) :
    (runOps gw ops).orders.map Order.orderId =
      (List.range' 1 ops.length).map mkOrderId ∧
    ((runOps gw ops).orders.map Order.orderId).Nodup ∧
    mkOrderId 7 = "ORD-007" ∧ mkOrderId 998 = "ORD-998" ∧
    mkOrderId 1000 = "ORD-1000" := by
  have hids := foldl_step_ids gw ops emptyDB h (by simp [emptyDB])
  simp only [emptyDB] at hids
  refine ⟨by simpa [runOps, emptyDB] using hids, ?_, by decide, by decide, by decide⟩
  rw [show (runOps gw ops).orders.map Order.orderId =
      (List.range' 1 ops.length).map mkOrderId by simpa [runOps, emptyDB] using hids]
  exact (List.nodup_range' 1 ops.length).map mkOrderId_inj

/-- Witness for sequential_order_identifiers at a concrete run of three
creations. -/
theorem sequential_order_identifiers_app :
    (∀ op ∈ opsThree, goodDirectOp op = true) ∧
    ((runOps gwAllSucceeded opsThree).orders.map Order.orderId =
        (List.range' 1 opsThree.length).map mkOrderId ∧
      ((runOps gwAllSucceeded opsThree).orders.map Order.orderId).Nodup ∧
      mkOrderId 7 = "ORD-007" ∧ mkOrderId 998 = "ORD-998" ∧
      mkOrderId 1000 = "ORD-1000") :=
  ⟨by decide, sequential_order_identifiers gwAllSucceeded opsThree (by decide)⟩

lemma replaceCustomer_map_email (e : String) (c' : Customer) (hc : c'.email = e) :
    ∀ cs : List Customer,
      (replaceCustomer e c' cs).map Customer.email = cs.map Customer.email := by
  intro cs
  induction cs with
  | nil => rfl
  | cons x xs ih =>
    unfold replaceCustomer
    by_cases hx : x.email = e
    · rw [if_pos hx]
      simp [hc, hx]
    · rw [if_neg hx]
      simp [ih]

lemma replaceCustomer_length (e : String) (c' : Customer) :
    ∀ cs : List Customer, (replaceCustomer e c' cs).length = cs.length := by
  intro cs
  induction cs with
  | nil => rfl
  | cons x xs ih =>
    unfold replaceCustomer
    by_cases hx : x.email = e
    · rw [if_pos hx]
      simp
    · rw [if_neg hx]
      simp [ih]

lemma find?_replaceCustomer_self (e : String) (c' : Customer) (hc : c'.email = e) :
    ∀ cs c, cs.find? (fun x => x.email == e) = some c →
      (replaceCustomer e c' cs).find? (fun x => x.email == e) = some c' := by
  intro cs
  induction cs with
  | nil => intro c h; simp at h
  | cons x xs ih =>
    intro c h
    unfold replaceCustomer
    by_cases hx : x.email = e
    · rw [if_pos hx]
      simp [List.find?_cons, hc]
    · rw [if_neg hx]
      rw [List.find?_cons_of_neg _ (by simpa using hx)] at h
      rw [List.find?_cons_of_neg _ (by simpa using hx)]
      exact ih c h

lemma find?_replaceCustomer_ne (e : String) (c' : Customer) (e' : String)
    (hc : c'.email = e) (hne : e' ≠ e) :
    ∀ cs : List Customer,
      (replaceCustomer e c' cs).find? (fun x => x.email == e') =
        cs.find? (fun x => x.email == e') := by
  intro cs
  induction cs with
  | nil => rfl
  | cons x xs ih =>
    unfold replaceCustomer
    by_cases hx : x.email = e
    · rw [if_pos hx]
      rw [List.find?_cons_of_neg _ (by simp [hc]; exact fun h => hne h.symm),
        List.find?_cons_of_neg _ (by simp [hx]; exact fun h => hne h.symm)]
    · rw [if_neg hx]
      by_cases hxe : x.email = e'
      · rw [List.find?_cons_of_pos _ (by simpa using hxe),
          List.find?_cons_of_pos _ (by simpa using hxe)]
      · rw [List.find?_cons_of_neg _ (by simpa using hxe),
          List.find?_cons_of_neg _ (by simpa using hxe)]
        exact ih

lemma ledgerMatch_of_some {e : String} {db : DB} {c : Customer}
    (h : ledgerRow e db = some c)
    (h1 : c.totalOrders = (ordersFor e db).length)
    (h2 : c.totalSpent = ((ordersFor e db).map Order.total).sum) :
    ledgerMatch e db := by
  unfold ledgerMatch
  rw [h]
  exact ⟨h1, h2⟩

lemma ledgerMatch_some_elim {e : String} {db : DB} {c : Customer}
    (h : ledgerRow e db = some c) (hm : ledgerMatch e db) :
    c.totalOrders = (ordersFor e db).length ∧
    c.totalSpent = ((ordersFor e db).map Order.total).sum := by
  unfold ledgerMatch at hm
  rw [h] at hm
  exact hm

lemma ledgerMatch_of_none {e : String} {db : DB}
    (h : ledgerRow e db = none) (h0 : ordersFor e db = []) : ledgerMatch e db := by
  unfold ledgerMatch
  rw [h]
  exact h0

lemma ledgerMatch_none_elim {e : String} {db : DB}
    (h : ledgerRow e db = none) (hm : ledgerMatch e db) : ordersFor e db = [] := by
  unfold ledgerMatch at hm
  rw [h] at hm
  exact hm

lemma ledgerMatch_congr {e : String} {db db' : DB}
    (hrow : ledgerRow e db' = ledgerRow e db)
    (hof : ordersFor e db' = ordersFor e db) (h : ledgerMatch e db) :
    ledgerMatch e db' := by
  unfold ledgerMatch at h ⊢
  rw [hrow, hof]
  exact h

lemma ledger_step (db : DB) (o : Order) (now : Nat)
    (name0 phone0 locUpd locNew pay : String)
    (hwf : customersWF db.customers)
    (hinv : ∀ e, ledgerMatch e db) :
    customersWF (upsertCustomer now name0 o.customer.email phone0 locUpd locNew o.total pay
        db.customers) ∧
    ∀ e, ledgerMatch e
        ⟨db.orders ++ [o],
         upsertCustomer now name0 o.customer.email phone0 locUpd locNew o.total pay
           db.customers⟩ := by
  have hOFeq : ∀ e, o.customer.email = e →
      ordersFor e ⟨db.orders ++ [o],
        upsertCustomer now name0 o.customer.email phone0 locUpd locNew o.total pay
          db.customers⟩ = ordersFor e db ++ [o] := by
    intro e he
    simp [ordersFor, List.filter_append, he]
  have hOFne : ∀ e, o.customer.email ≠ e →
      ordersFor e ⟨db.orders ++ [o],
        upsertCustomer now name0 o.customer.email phone0 locUpd locNew o.total pay
          db.customers⟩ = ordersFor e db := by
    intro e he
    simp [ordersFor, List.filter_append, he]
  cases hfind : db.customers.find? (fun x => x.email == o.customer.email) with
  | some c =>
    have hce : c.email = o.customer.email := by simpa using List.find?_some hfind
    have hup : upsertCustomer now name0 o.customer.email phone0 locUpd locNew o.total pay
        db.customers =
        replaceCustomer o.customer.email
          (updatedCustomer c now name0 phone0 locUpd o.total pay) db.customers := by
      unfold upsertCustomer
      rw [hfind]
    have hcem : (updatedCustomer c now name0 phone0 locUpd o.total pay).email =
        o.customer.email := hce
    refine ⟨?_, ?_⟩
    · rw [hup]
      unfold customersWF
      rw [replaceCustomer_map_email _ _ hcem]
      exact hwf
    · intro e
      by_cases he : o.customer.email = e
      · subst he
        have helim := ledgerMatch_some_elim (e := o.customer.email) (c := c) hfind
          (hinv o.customer.email)
        apply ledgerMatch_of_some
          (c := updatedCustomer c now name0 phone0 locUpd o.total pay)
        · show (upsertCustomer now name0 o.customer.email phone0 locUpd locNew o.total pay
              db.customers).find? _ = _
          rw [hup]
          exact find?_replaceCustomer_self _ _ hcem _ _ hfind
        · show c.totalOrders + 1 = _
          rw [hOFeq _ rfl]
          simp [helim.1]
        · show c.totalSpent + o.total = _
          rw [hOFeq _ rfl]
          simp [helim.2]
      · apply ledgerMatch_congr ?_ (hOFne _ he) (hinv e)
        show (upsertCustomer now name0 o.customer.email phone0 locUpd locNew o.total pay
            db.customers).find? _ = _
        rw [hup]
        exact find?_replaceCustomer_ne _ _ _ hcem (fun h => he h.symm) _
  | none =>
    have hnot : ∀ x ∈ db.customers, ¬(x.email == o.customer.email) = true :=
      List.find?_eq_none.mp hfind
    have hup : upsertCustomer now name0 o.customer.email phone0 locUpd locNew o.total pay
        db.customers =
        db.customers ++
          [newCustomer db.customers.length now name0 o.customer.email phone0 locNew
            o.total pay] := by
      unfold upsertCustomer
      rw [hfind]
    refine ⟨?_, ?_⟩
    · rw [hup]
      unfold customersWF
      rw [List.map_append, List.nodup_append]
      refine ⟨hwf, by simp, ?_⟩
      intro a ha hb
      have hae : a = o.customer.email := by
        simpa [newCustomer] using hb
      obtain ⟨x, hx, hxe⟩ := List.mem_map.mp ha
      exact hnot x hx (by simp [hxe, hae])
    · intro e
      by_cases he : o.customer.email = e
      · subst he
        have helim := ledgerMatch_none_elim (e := o.customer.email) hfind
          (hinv o.customer.email)
        apply ledgerMatch_of_some
          (c := newCustomer db.customers.length now name0 o.customer.email phone0 locNew
            o.total pay)
        · show (upsertCustomer now name0 o.customer.email phone0 locUpd locNew o.total pay
              db.customers).find? _ = _
          rw [hup, List.find?_append, hfind]
          simp [newCustomer]
        · show 1 = _
          rw [hOFeq _ rfl, helim]
          simp
        · show o.total = _
          rw [hOFeq _ rfl, helim]
          simp
      · apply ledgerMatch_congr ?_ (hOFne _ he) (hinv e)
        show (upsertCustomer now name0 o.customer.email phone0 locUpd locNew o.total pay
            db.customers).find? _ = _
        have hsing : ([newCustomer db.customers.length now name0 o.customer.email phone0
            locNew o.total pay].find? fun x => x.email == e) = none := by
          simp [newCustomer]
          exact he
        rw [hup, List.find?_append, hsing, Option.or_none]
        rfl

lemma createDirect_preserves (now : Nat) (r : OrderRequest) (db : DB)
    (hwf : customersWF db.customers) (hinv : ∀ e, ledgerMatch e db) :
    customersWF (createDirect now r db).2.customers ∧
    ∀ e, ledgerMatch e (createDirect now r db).2 := by
  unfold createDirect
  by_cases h1 : directReqValid r = true
  · rw [if_pos h1]
    by_cases h2 : (orderValid (mkDirectOrder now (mkOrderId (db.orders.length + 1)) r) &&
        orderIdFresh db (mkDirectOrder now (mkOrderId (db.orders.length + 1)) r)) = true
    · rw [if_pos h2]
      exact ledger_step db (mkDirectOrder now (mkOrderId (db.orders.length + 1)) r) now
        r.customer.name r.customer.phone r.customer.location r.customer.country
        (jsOr r.paymentStatus "Pending") hwf hinv
    · rw [if_neg h2]
      exact ⟨hwf, hinv⟩
  · rw [if_neg h1]
    exact ⟨hwf, hinv⟩

lemma confirmPayment_preserves (gw : String → String) (now : Nat) (r : ConfirmRequest)
    (db : DB) (hwf : customersWF db.customers) (hinv : ∀ e, ledgerMatch e db) :
    customersWF (confirmPayment gw now r db).2.customers ∧
    ∀ e, ledgerMatch e (confirmPayment gw now r db).2 := by
  unfold confirmPayment
  by_cases h1 : confirmReqValid r = true
  · rw [if_pos h1]
    by_cases hs : gw r.paymentIntentId ≠ "succeeded"
    · rw [if_pos hs]
      exact ⟨hwf, hinv⟩
    · rw [if_neg hs]
      by_cases h2 : (orderValid (mkConfirmOrder now (mkOrderId (db.orders.length + 1)) r) &&
          orderIdFresh db (mkConfirmOrder now (mkOrderId (db.orders.length + 1)) r)) = true
      · rw [if_pos h2]
        exact ledger_step db (mkConfirmOrder now (mkOrderId (db.orders.length + 1)) r) now
          r.customer.name r.customer.phone r.customer.country r.customer.country
          "Complete" hwf hinv
      · rw [if_neg h2]
        exact ⟨hwf, hinv⟩
  · rw [if_neg h1]
    exact ⟨hwf, hinv⟩

lemma foldl_step_preserves (gw : String → String) :
    ∀ (ops : List Op) (db : DB), customersWF db.customers → (∀ e, ledgerMatch e db) →
      customersWF (ops.foldl (step gw) db).customers ∧
      ∀ e, ledgerMatch e (ops.foldl (step gw) db) := by
  intro ops
  induction ops with
  | nil => intro db hwf hinv; exact ⟨hwf, hinv⟩
  | cons op rest ih =>
    intro db hwf hinv
    rw [List.foldl_cons]
    have h : customersWF (step gw db op).customers ∧ ∀ e, ledgerMatch e (step gw db op) := by
      cases op with
      | direct now r => exact createDirect_preserves now r db hwf hinv
      | confirm now r => exact confirmPayment_preserves gw now r db hwf hinv
    exact ih _ h.1 h.2

/-- Claim C2: for every email and every sequence of order-creation calls
(direct or payment-confirmed) executed one after another, the customer row
for that email has totalOrders equal to the number of stored orders for that
email and totalSpent equal to the sum of those orders' totals; in particular
two orders from alice@example.com with totals 10.00 and 15.00 leave one row
with totalOrders 2, totalSpent 25.00, and lastOrderDate the second order's
timestamp. -/
theorem customer_ledger_totals (gw : String → String) (ops : List Op) (email : String) :
    ledgerMatch email (runOps gw ops) ∧
    ledgerRow "alice@example.com" twoOrdersDB =
      some { customerId := "CUST-001", customerName := "Alice",
             email := "alice@example.com", phone := "555-0101", location := "",
             totalOrders := 2, totalSpent := 25, lastOrderDate := 200,
             paymentStatus := "Pending" } ∧
    twoOrdersDB.orders.getLast?.map Order.createdAt = some 200 := by
  refine ⟨?_, by with_unfolding_all decide, by with_unfolding_all decide⟩
  exact (foldl_step_preserves gw ops emptyDB (by simp [customersWF, emptyDB])
    (fun e => by
      apply ledgerMatch_of_none <;> simp [ledgerRow, ordersFor, emptyDB])).2 email

/-- Claim C5: on a call whose email already has a ledger row, the upsert
increments totalOrders by exactly 1 and totalSpent by exactly the order
total, sets lastOrderDate to the order date and paymentStatus to the
supplied value, and overwrites each of name/phone/location only when the
incoming value is non-empty; on an email with no row, a new row is created
with totalOrders 1, totalSpent the order total, and contact fields from the
request. -/
theorem upsert_merge_semantics (now : Nat) (name email phone locUpd locNew : String)
    (total : ℚ) (pay : String) (cs : List Customer) :
    (∀ c, cs.find? (fun x => x.email == email) = some c →
      (upsertCustomer now name email phone locUpd locNew total pay cs).find?
          (fun x => x.email == email) =
        some { customerId := c.customerId
               customerName := if name ≠ "" then name else c.customerName
               email := c.email
               phone := if phone ≠ "" then phone else c.phone
               location := if locUpd ≠ "" then locUpd else c.location
               totalOrders := c.totalOrders + 1
               totalSpent := c.totalSpent + total
               lastOrderDate := now
               paymentStatus := pay } ∧
      (upsertCustomer now name email phone locUpd locNew total pay cs).length =
        cs.length) ∧
    (cs.find? (fun x => x.email == email) = none →
      upsertCustomer now name email phone locUpd locNew total pay cs =
        cs ++ [{ customerId := mkCustomerId (cs.length + 1), customerName := name,
                 email := email, phone := phone, location := locNew,
                 totalOrders := 1, totalSpent := total, lastOrderDate := now,
                 paymentStatus := pay }]) := by
  constructor
  · intro c h
    have hce : c.email = email := by simpa using List.find?_some h
    have hup : upsertCustomer now name email phone locUpd locNew total pay cs =
        replaceCustomer email (updatedCustomer c now name phone locUpd total pay) cs := by
      unfold upsertCustomer
      rw [h]
    constructor
    · rw [hup]
      exact find?_replaceCustomer_self email
        (updatedCustomer c now name phone locUpd total pay) hce cs c h
    · rw [hup]
      exact replaceCustomer_length email _ cs
  · intro h
    have hup : upsertCustomer now name email phone locUpd locNew total pay cs =
        cs ++ [newCustomer cs.length now name email phone locNew total pay] := by
      unfold upsertCustomer
      rw [h]
    rw [hup]
    rfl

/-- Witness for upsert_merge_semantics at a concrete existing row (the empty
incoming location leaves the stored one) and at the empty ledger. -/
theorem upsert_merge_semantics_app :
    ((upsertCustomer 60 "Bobby" "bob@example.com" "" "" "London" 5 "Complete"
        [bobRow]).find? (fun x => x.email == "bob@example.com") =
      some { customerId := "CUST-001", customerName := "Bobby",
             email := "bob@example.com", phone := "111", location := "Paris",
             totalOrders := 4, totalSpent := 45, lastOrderDate := 60,
             paymentStatus := "Complete" } ∧
     (upsertCustomer 60 "Bobby" "bob@example.com" "" "" "London" 5 "Complete"
        [bobRow]).length = 1) ∧
    upsertCustomer 60 "Bobby" "bob@example.com" "" "" "London" 5 "Complete" [] =
      [{ customerId := mkCustomerId 1, customerName := "Bobby",
         email := "bob@example.com", phone := "", location := "London",
         totalOrders := 1, totalSpent := 5, lastOrderDate := 60,
         paymentStatus := "Complete" }] := by
  constructor
  · have h := (upsert_merge_semantics 60 "Bobby" "bob@example.com" "" "" "London" 5
      "Complete" [bobRow]).1 bobRow (by with_unfolding_all decide)
    exact ⟨h.1.trans (by with_unfolding_all decide), h.2⟩
  · have h := (upsert_merge_semantics 60 "Bobby" "bob@example.com" "" "" "London" 5
      "Complete" []).2 rfl
    exact h

/-- Claim C3: a confirmation whose gateway intent status is not succeeded
answers 400 "Payment not completed" and performs no persistence at all: the
store, orders and customer ledger included, is returned unchanged. -/
theorem confirm_without_success_no_persistence (gw : String → String) (now : Nat)
    (r : ConfirmRequest) (db : DB)
    (hv : confirmReqValid r = true)
    (hs : gw r.paymentIntentId ≠ "succeeded") :
    confirmPayment gw now r db = (.badRequest "Payment not completed", db) := by
  unfold confirmPayment
  rw [if_pos hv, if_pos hs]

/-- Witness for confirm_without_success_no_persistence: a requires_action
intent against a store with an existing ledger row. -/
theorem confirm_without_success_no_persistence_app :
    confirmReqValid confirmReq1 = true ∧
    gwRequiresAction confirmReq1.paymentIntentId ≠ "succeeded" ∧
    confirmPayment gwRequiresAction 5 confirmReq1 dbBob =
      (.badRequest "Payment not completed", dbBob) :=
  ⟨by with_unfolding_all decide, by decide,
   confirm_without_success_no_persistence gwRequiresAction 5 confirmReq1 dbBob
     (by with_unfolding_all decide) (by decide)⟩

/-- Claim C1: the confirm handler has no idempotency protection — it neither
stores the payment intent id (orderSchema has no such field) nor checks for
an existing order of the intent, so confirming the same intent twice creates
two order records; the second call answers with the second, freshly created
order ORD-002 instead of returning the existing ORD-001. -/
theorem confirm_twice_duplicates_order :
    ((confirmPayment gwAllSucceeded 2 confirmReq1
        (confirmPayment gwAllSucceeded 1 confirmReq1 emptyDB).2).2).orders.map
        Order.orderId = ["ORD-001", "ORD-002"] ∧
    ((confirmPayment gwAllSucceeded 2 confirmReq1
        (confirmPayment gwAllSucceeded 1 confirmReq1 emptyDB).2).1.createdOrder?).map
        Order.orderId = some "ORD-002" := by
  with_unfolding_all decide

/-- Counterexample to claim C6: the body spread of POST /orders also lets the
request override the status default, so a valid request carrying
status Shipped is persisted with status Shipped, not Pending. -/
theorem direct_creation_status_not_always_pending :
    ((createDirect 0 reqWithStatusShipped emptyDB).1.createdOrder?).map Order.status =
      some "Shipped" ∧ "Shipped" ≠ "Pending" := by
  exact ⟨by with_unfolding_all decide, by decide⟩

/-- Claim C6 (amended): a valid direct-creation request whose order saves is
persisted with status the request's status value when one is supplied and
Pending otherwise, and with paymentStatus the request's value or the Pending
default. -/
theorem direct_creation_status_defaults (now : Nat) (r : OrderRequest) (db : DB)
    (hv : directReqValid r = true)
    (ho : orderValid (mkDirectOrder now (mkOrderId (db.orders.length + 1)) r) = true)
    (hf : orderIdFresh db (mkDirectOrder now (mkOrderId (db.orders.length + 1)) r) = true) :
    (createDirect now r db).1 =
      .created (mkDirectOrder now (mkOrderId (db.orders.length + 1)) r) ∧
    (mkDirectOrder now (mkOrderId (db.orders.length + 1)) r).status =
      r.status.getD "Pending" ∧
    (mkDirectOrder now (mkOrderId (db.orders.length + 1)) r).paymentStatus =
      r.paymentStatus.getD "Pending" := by
  refine ⟨?_, rfl, rfl⟩
  unfold createDirect
  rw [if_pos hv, if_pos (by rw [Bool.and_eq_true]; exact ⟨ho, hf⟩)]

/-- Witness for direct_creation_status_defaults at a plain request without
status fields, from the empty store. -/
theorem direct_creation_status_defaults_app :
    directReqValid (aliceReq 10) = true ∧
    orderValid (mkDirectOrder 0 (mkOrderId 1) (aliceReq 10)) = true ∧
    orderIdFresh emptyDB (mkDirectOrder 0 (mkOrderId 1) (aliceReq 10)) = true ∧
    ((createDirect 0 (aliceReq 10) emptyDB).1 =
        .created (mkDirectOrder 0 (mkOrderId 1) (aliceReq 10)) ∧
      (mkDirectOrder 0 (mkOrderId 1) (aliceReq 10)).status =
        (aliceReq 10).status.getD "Pending" ∧
      (mkDirectOrder 0 (mkOrderId 1) (aliceReq 10)).paymentStatus =
        (aliceReq 10).paymentStatus.getD "Pending") :=
  ⟨by with_unfolding_all decide, by with_unfolding_all decide,
   by with_unfolding_all decide,
   direct_creation_status_defaults 0 (aliceReq 10) emptyDB
     (by with_unfolding_all decide) (by with_unfolding_all decide)
     (by with_unfolding_all decide)⟩

/-- Claim C7: the handler builds the order as the body spread over the
minted identifier, so a valid request that itself carries an orderId field
is persisted under the caller-supplied identifier, not the minted ORD-###
value. -/
theorem direct_creation_orderId_override (now : Nat) (r : OrderRequest) (db : DB)
    (s : String) (hs : r.orderId = some s)
    (hv : directReqValid r = true)
    (ho : orderValid (mkDirectOrder now (mkOrderId (db.orders.length + 1)) r) = true)
    (hf : orderIdFresh db (mkDirectOrder now (mkOrderId (db.orders.length + 1)) r) = true) :
    ((createDirect now r db).1.createdOrder?).map Order.orderId = some s ∧
    ((createDirect now r db).2.orders.getLast?).map Order.orderId = some s := by
  have hres : createDirect now r db =
      (.created (mkDirectOrder now (mkOrderId (db.orders.length + 1)) r),
       { orders := db.orders ++ [mkDirectOrder now (mkOrderId (db.orders.length + 1)) r]
         customers := upsertCustomer now r.customer.name r.customer.email r.customer.phone
           r.customer.location r.customer.country r.total (jsOr r.paymentStatus "Pending")
           db.customers }) := by
    unfold createDirect
    rw [if_pos hv, if_pos (by rw [Bool.and_eq_true]; exact ⟨ho, hf⟩)]
  rw [hres]
  constructor
  · simp [ApiResult.createdOrder?, mkDirectOrder, hs]
  · simp only [List.getLast?_concat, Option.map_some']
    simp [mkDirectOrder, hs]

/-- Witness for direct_creation_orderId_override: a request carrying
orderId HACK-9 is persisted under HACK-9. -/
theorem direct_creation_orderId_override_app :
    reqWithOrderId.orderId = some "HACK-9" ∧
    directReqValid reqWithOrderId = true ∧
    orderValid (mkDirectOrder 0 (mkOrderId 1) reqWithOrderId) = true ∧
    orderIdFresh emptyDB (mkDirectOrder 0 (mkOrderId 1) reqWithOrderId) = true ∧
    (((createDirect 0 reqWithOrderId emptyDB).1.createdOrder?).map Order.orderId =
        some "HACK-9" ∧
      ((createDirect 0 reqWithOrderId emptyDB).2.orders.getLast?).map Order.orderId =
        some "HACK-9") :=
  ⟨rfl, by with_unfolding_all decide, by with_unfolding_all decide,
   by with_unfolding_all decide,
   direct_creation_orderId_override 0 reqWithOrderId emptyDB "HACK-9" rfl
     (by with_unfolding_all decide) (by with_unfolding_all decide)
     (by with_unfolding_all decide)⟩

/-- Claim C8: a status-update request whose status value is outside the
status enum answers 400 with the store, and hence every stored order,
completely unchanged; validation happens before the order is even fetched. -/
theorem status_update_rejects_unknown_value (i : Nat) (ns : String) (np : Option String)
    (db : DB) (h : ns ∉ statusEnum) :
    updateOrderStatus i ns np db = (.badRequest "validation", db) := by
  unfold updateOrderStatus
  rw [if_neg (by simpa using h)]

/-- Witness for status_update_rejects_unknown_value at the value Paid against
a store holding one Pending order. -/
theorem status_update_rejects_unknown_value_app :
    "Paid" ∉ statusEnum ∧
    updateOrderStatus 0 "Paid" none (dbWithOrder "Pending") =
      (.badRequest "validation", dbWithOrder "Pending") :=
  ⟨by decide,
   status_update_rejects_unknown_value 0 "Paid" none (dbWithOrder "Pending") (by decide)⟩

/-- Claim C9: updateStatus checks only enum membership, not transition
direction — for a stored schema-valid order, any enum member is accepted as
the new status from any current status and is persisted, backward
transitions included. -/
theorem status_update_accepts_any_enum_value (i : Nat) (ns : String) (db : DB)
    (o : Order) (ho : db.orders.get? i = some o)
    (hv : orderValid o = true) (hns : ns ∈ statusEnum) :
    updateOrderStatus i ns none db =
      (.ok { o with status := ns },
       { db with orders := db.orders.set i { o with status := ns } }) ∧
    ((db.orders.set i { o with status := ns }).get? i).map Order.status = some ns := by
  have ho2 : orderValid { o with status := ns } = true := by
    unfold orderValid at hv ⊢
    simp only [Bool.and_eq_true, decide_eq_true_eq] at hv ⊢
    obtain ⟨⟨⟨⟨⟨⟨⟨h1, h2⟩, h3⟩, h4⟩, h5⟩, h6⟩, _⟩, h8⟩ := hv
    exact ⟨⟨⟨⟨⟨⟨⟨h1, h2⟩, h3⟩, h4⟩, h5⟩, h6⟩, hns⟩, h8⟩
  have hi : i < db.orders.length := by
    rw [List.get?_eq_getElem?] at ho
    exact (List.getElem?_eq_some_iff.mp ho).1
  constructor
  · simp only [updateOrderStatus, ho]
    rw [if_pos (by simpa using hns)]
    have happly : applyStatusUpdate o ns none = { o with status := ns } := rfl
    rw [happly, if_pos ho2]
  · rw [List.get?_eq_getElem?, List.getElem?_set_self hi]
    rfl

/-- Witness for status_update_accepts_any_enum_value at the backward
transition Delivered to Pending. -/
theorem status_update_accepts_any_enum_value_app :
    (dbWithOrder "Delivered").orders.get? 0 = some (storedOrder "Delivered") ∧
    orderValid (storedOrder "Delivered") = true ∧
    "Pending" ∈ statusEnum ∧
    (updateOrderStatus 0 "Pending" none (dbWithOrder "Delivered") =
        (.ok { storedOrder "Delivered" with status := "Pending" },
         { dbWithOrder "Delivered" with
             orders := (dbWithOrder "Delivered").orders.set 0
               { storedOrder "Delivered" with status := "Pending" } }) ∧
      (((dbWithOrder "Delivered").orders.set 0
          { storedOrder "Delivered" with status := "Pending" }).get? 0).map
          Order.status = some "Pending") :=
  ⟨rfl, by with_unfolding_all decide, by decide,
   status_update_accepts_any_enum_value 0 "Pending" (dbWithOrder "Delivered")
     (storedOrder "Delivered") rfl (by with_unfolding_all decide) (by decide)⟩

/-- Counterexample to claim C10 as stated: an empty string is a paymentStatus
value outside the enum, yet the handler treats it as falsy, skips the
assignment, saves successfully and answers 200 with the status updated — not
a 500 with the order unchanged. -/
theorem status_update_empty_payment_not_500 :
    "" ∉ payEnum ∧
    updateOrderStatus 0 "Processing" (some "") (dbWithOrder "Pending") =
      (.ok { storedOrder "Pending" with status := "Processing" },
       ⟨[{ storedOrder "Pending" with status := "Processing" }], []⟩) := by
  exact ⟨by decide, by with_unfolding_all decide⟩

/-- Claim C10 (amended): a status-update request with a valid status and a
non-empty paymentStatus outside the payment enum passes request validation,
fails at persistence against the schema enum, is reported as a 500 internal
error rather than a 400 validation error, and leaves the store unchanged;
an empty-string paymentStatus is instead treated as absent. -/
theorem status_update_bad_payment_is_500 (i : Nat) (ns p : String) (db : DB)
    (o : Order) (ho : db.orders.get? i = some o)
    (hns : ns ∈ statusEnum) (hp : p ≠ "") (hpe : p ∉ payEnum) :
    updateOrderStatus i ns (some p) db = (.serverError "Error updating order", db) := by
  have happly : applyStatusUpdate o ns (some p) =
      { o with status := ns, paymentStatus := p } := by
    simp [applyStatusUpdate, hp]
  have hov : orderValid (applyStatusUpdate o ns (some p)) = false := by
    rw [happly]
    unfold orderValid
    simp [hpe]
  simp only [updateOrderStatus, ho]
  rw [if_pos (by simpa using hns), if_neg (by simp [hov])]

/-- Witness for status_update_bad_payment_is_500 at the value Paid. -/
theorem status_update_bad_payment_is_500_app :
    (dbWithOrder "Pending").orders.get? 0 = some (storedOrder "Pending") ∧
    "Shipped" ∈ statusEnum ∧ "Paid" ≠ "" ∧ "Paid" ∉ payEnum ∧
    updateOrderStatus 0 "Shipped" (some "Paid") (dbWithOrder "Pending") =
      (.serverError "Error updating order", dbWithOrder "Pending") :=
  ⟨rfl, by decide, by decide, by decide,
   status_update_bad_payment_is_500 0 "Shipped" "Paid" (dbWithOrder "Pending")
     (storedOrder "Pending") rfl (by decide) (by decide) (by decide)⟩
